import Mathlib

/-!
# Verification of the Dread-of-Zarovich data-migration scripts

Shallow embedding of the three migration scripts
(`scripts/add-actor-items.py`, `scripts/fix-actor-data.py`,
`scripts/refactor-data.py`) of the `dh2e-dread-of-zarovich` repository,
together with theorems settling the specification claims about them.

Modelling conventions:
* Python strings are Lean `String`s; most helpers work on `List Char`
  (`String.data`).  Python's `str.strip`, `str.rstrip`, `str.split`,
  `str.lower` and the concrete regular expressions used by the scripts
  are implemented directly as executable Lean functions.
* Python regular-expression semantics are reproduced for the concrete
  patterns appearing in the scripts, including the fact that `.` does not
  match a newline while `\s` does.
* JSON dictionaries become Lean structures whose optional keys are
  `Option` fields; JSON variants that the code distinguishes through
  `isinstance` checks become inductive types.
* The `_id` counter and the `img` icon paths of generated records are not
  modelled: no claim concerns them and they do not feed back into any
  transform.
-/

/-- Characters matched by Python's `\s` class (and stripped by `str.strip()`). -/
def pyIsWs (c : Char) : Bool :=
  c = ' ' || c = '\t' || c = '\n' || c = '\r' || c = '\x0b' || c = '\x0c'

/-- Python `str.lstrip()` on a character list. -/
def lstripWs (l : List Char) : List Char := l.dropWhile pyIsWs

/-- Python `str.rstrip()` on a character list. -/
def rstripWs (l : List Char) : List Char := (l.reverse.dropWhile pyIsWs).reverse

/-- Python `str.strip()` on a character list. -/
def pyStrip (l : List Char) : List Char := rstripWs (lstripWs l)

/-- Python `str.rstrip('.')` on a character list (drops every trailing dot). -/
def rstripDots (l : List Char) : List Char :=
  (l.reverse.dropWhile (· = '.')).reverse

/-- ASCII decimal digit test (Python's `\d` on the data at hand). -/
def isDigitC (c : Char) : Bool := '0' ≤ c && c ≤ '9'

/-- Value of a (most-significant-first) list of decimal digits, as `int()`. -/
def digitsToNat (l : List Char) : Nat :=
  l.foldl (fun n c => n * 10 + (c.toNat - '0'.toNat)) 0

/-- `re.search(r'(\d+)', s)`: the first maximal run of digits in `s`, if any. -/
def firstNumber : List Char → Option Nat
  | [] => none
  | c :: rest =>
      if isDigitC c then some (digitsToNat (c :: rest.takeWhile isDigitC))
      else firstNumber rest

/-- Python `str.split(sep)` for a one-character separator: splits at every
occurrence, keeping empty pieces (`"a,,b".split(',') = ['a','','b']`). -/
def pySplitChar (sep : Char) : List Char → List (List Char)
  | [] => [[]]
  | c :: rest =>
      let r := pySplitChar sep rest
      if c = sep then [] :: r
      else
        match r with
        | h :: t => (c :: h) :: t
        | [] => [[c]]

/-- `split_respecting_parens` from `add-actor-items.py` (lines 79–96): split on
commas, but not inside parentheses; depth is tracked by counting `(`/`)` (and
may go negative); pieces are stripped and empty pieces discarded at the end. -/
def srpGo : List Char → Int → List Char → List String → List String
  | [], _, current, acc =>
      let acc := if current ≠ [] then acc ++ [⟨pyStrip current.reverse⟩] else acc
      acc.filter (fun r => r ≠ "")
  | c :: rest, depth, current, acc =>
      if c = '(' then srpGo rest (depth + 1) (c :: current) acc
      else if c = ')' then srpGo rest (depth - 1) (c :: current) acc
      else if c = ',' && depth = 0 then
        srpGo rest depth [] (acc ++ [⟨pyStrip current.reverse⟩])
      else srpGo rest depth (c :: current) acc

/-- `split_respecting_parens(text)` on a `String`. -/
def split_respecting_parens (text : String) : List String :=
  srpGo text.data 0 [] []

/-!
## Regular-expression matchers

The scripts use a small number of concrete regular expressions.  Each is
reproduced as an executable matcher.  The group-1 prefix of the patterns
`^(.+?)\s*\(...\)$` must consist of `.`-matchable characters (no newline)
followed by `\s*`; `prefixOk` captures exactly when such a decomposition
of the text before the parenthesis exists.
-/

/-- Whether a non-empty prefix `p` can be split as `g1 ++ ws` with `g1`
non-empty and newline-free (matched by `.+?`) and `ws` whitespace
(matched by `\s*`). -/
def prefixOk (p : List Char) : Bool :=
  !p.isEmpty &&
    (let p' := rstripWs p
     if p'.isEmpty then p.head? ≠ some '\n' else !p'.contains '\n')

/-- `re.match(r'^(.+?)\s*\((\d+)\)$', s)`: a trailing `(N)` with a bare
integer `N`.  Returns the stripped group-1 text and the integer. -/
def matchParenNum (s : List Char) : Option (List Char × Nat) :=
  match s.reverse with
  | ')' :: rest =>
      let ds := rest.takeWhile isDigitC
      match rest.drop ds.length with
      | '(' :: preRev =>
          if !ds.isEmpty && prefixOk preRev.reverse then
            some (pyStrip preRev.reverse, digitsToNat ds.reverse)
          else none
      | _ => none
  | _ => none

/-- `re.match(r'^(.+?)\s*\(x(\d+)\)$', s)`: a trailing `(xN)` multiplier. -/
def matchParenX (s : List Char) : Option (List Char × Nat) :=
  match s.reverse with
  | ')' :: rest =>
      let ds := rest.takeWhile isDigitC
      match rest.drop ds.length with
      | 'x' :: '(' :: preRev =>
          if !ds.isEmpty && prefixOk preRev.reverse then
            some (pyStrip preRev.reverse, digitsToNat ds.reverse)
          else none
      | _ => none
  | _ => none

/-- Worker for `matchParenGen`: scans for the first `(` whose preceding text
admits a `.+?\s*` decomposition and whose parenthetical content (up to the
final character of the string, which must be `)`) is non-empty and
newline-free; this reproduces the backtracking order of the Python engine. -/
def mpgGo : List Char → List Char → Option (List Char × List Char)
  | _, [] => none
  | pre, c :: tl =>
      if c = '(' then
        let inner := tl.dropLast
        if tl.getLast? = some ')' && !inner.isEmpty && !inner.contains '\n'
            && prefixOk pre then
          some (pyStrip pre, inner)
        else mpgGo (pre ++ [c]) tl
      else mpgGo (pre ++ [c]) tl

/-- `re.match(r'^(.+?)\s*\((.+?)\)$', s)`: name followed by a trailing
parenthetical group; returns the stripped group-1 text and the raw content
between the first usable `(` and the final `)`. -/
def matchParenGen (s : List Char) : Option (List Char × List Char) :=
  mpgGo [] s

/-- `re.search(r'\+(\d+)$', entry)`: a trailing `+N`.  Returns `N` and the
text before the `+`. -/
def trailingPlusNum (s : List Char) : Option (Nat × List Char) :=
  match s.reverse with
  | [] => none
  | l =>
      let ds := l.takeWhile isDigitC
      match l.drop ds.length with
      | '+' :: preRev =>
          if ds.isEmpty then none
          else some (digitsToNat ds.reverse, preRev.reverse)
      | _ => none

/-!
## Lookup tables and record structures of `add-actor-items.py`
-/

/-- `SKILL_CHARS` (lines 22–33): skill base name → linked characteristic. -/
def skillCharsTable : List (String × String) :=
  [("Acrobatics", "ag"), ("Athletics", "s"), ("Awareness", "per"),
   ("Charm", "fel"), ("Command", "fel"), ("Commerce", "int"),
   ("Common Lore", "int"), ("Deceive", "fel"), ("Dodge", "ag"),
   ("Forbidden Lore", "int"), ("Inquiry", "fel"), ("Interrogation", "wp"),
   ("Intimidate", "s"), ("Linguistics", "int"), ("Logic", "int"),
   ("Medicae", "int"), ("Navigate", "int"), ("Operate", "ag"),
   ("Parry", "ws"), ("Psyniscience", "per"), ("Scholastic Lore", "int"),
   ("Scrutiny", "per"), ("Security", "int"), ("Sleight of Hand", "ag"),
   ("Stealth", "ag"), ("Survival", "per"), ("Tech-Use", "int"),
   ("Trade", "int")]

/-- `TRAIT_CATEGORIES` (lines 36–51): trait base name → category. -/
def traitCategoriesTable : List (String × String) :=
  [("Fear", "mental"), ("Dark Sight", "physical"),
   ("Unnatural Strength", "physical"), ("Unnatural Toughness", "physical"),
   ("Unnatural Willpower", "mental"), ("Unnatural Agility", "physical"),
   ("From Beyond", "warp"), ("Warp-Touched", "warp"), ("Warp Instability", "warp"),
   ("Regeneration", "physical"), ("Machine", "physical"),
   ("Size", "physical"), ("Flyer", "movement"),
   ("Bestial", "mental"), ("Quadruped", "movement"),
   ("Daemonic", "warp"), ("Fearless", "mental"),
   ("Mindless", "mental"), ("Shambling", "movement"), ("Undying", "warp"),
   ("Natural Armor", "physical"), ("Natural Armour", "physical"),
   ("Psyker", "warp"), ("Warp Seer", "warp"),
   ("Mechanicus Implants", "physical"), ("Multiple Arms", "physical"),
   ("Latent Psyker", "warp"), ("Barovus Native", "physical"),
   ("Disturbing", "mental"), ("Warp-Animated", "warp")]

/-- `POWER_DISCIPLINES` (lines 54–67): power name → discipline. -/
def powerDisciplinesTable : List (String × String) :=
  [("Warp Fire", "Pyromancy"),
   ("Telekinesis", "Telekinesis"),
   ("Telekinetic Control", "Telekinesis"),
   ("Telekinetic Storm", "Telekinesis"),
   ("Domination", "Telepathy"),
   ("Psychic Shriek", "Telepathy"),
   ("Flesh Warp", "Biomancy"),
   ("Warp Storm", "Warp"),
   ("Warp Lightning", "Warp"),
   ("Iron Arm", "Biomancy"),
   ("Psychic Scream", "Telepathy"),
   ("True Divination", "Divination")]

/-- `dict.get(key, default)` on an association-list table. -/
def tableGet (t : List (String × String)) (key dflt : String) : String :=
  (t.lookup key).getD dflt

/-- The `system` payload of a generated skill item. -/
structure SkillSys where
  description : String
  linkedCharacteristic : String
  advancement : Nat
  isSpecialist : Bool
  specialization : String
deriving DecidableEq, Repr

/-- The `system` payload of a generated talent item. -/
structure TalentSys where
  description : String
  tier : Nat
  aptitudes : List String
  prerequisites : String
  specialist : Bool
deriving DecidableEq, Repr

/-- A derived rule-effect descriptor as built by `refactor-data.py`; keys that
a given rule does not carry are `none`.  `value` is always the literal
placeholder string `"rating"` in `get_trait_rules_and_immunities`. -/
structure Rule where
  key : String
  option : Option String
  domain : Option String
  value : Option String
  mode : Option String
  damageType : Option String
  predicate : Option (List String)
deriving DecidableEq, Repr

/-- A rule carrying only `key` and `option` (`RollOption` rules). -/
def Rule.rollOption (o : String) : Rule :=
  ⟨"RollOption", some o, none, none, none, none, none⟩

/-- The `system` payload of a generated trait item. -/
structure TraitSys where
  description : String
  rules : List Rule
  hasRating : Bool
  rating : Nat
  category : String
deriving DecidableEq, Repr

/-- Python's `sustained` field is either the string `"Half Action"` or the
boolean `False` in `process_actor` (a dynamically-typed quirk of the code). -/
inductive PyStrOrBool where
  | str (s : String)
  | bool (b : Bool)
deriving DecidableEq, Repr

/-- The `system` payload of a generated power item. -/
structure PowerSys where
  description : String
  discipline : String
  cost : Nat
  prerequisites : String
  focusTest : String
  focusModifier : Int
  range : String
  sustained : PyStrOrBool
  action : String
  subtype : String
  opposed : Bool
deriving DecidableEq, Repr

/-- Kind-specific payload of an embedded item.  `otherData` stands for the
payload of item kinds `add-actor-items.py` never builds (weapons, armour,
gear already on the actor); the script only ever reads their `type` field. -/
inductive ItemData where
  | skillData (d : SkillSys)
  | talentData (d : TalentSys)
  | traitData (d : TraitSys)
  | powerData (d : PowerSys)
  | otherData
deriving DecidableEq, Repr

/-- An embedded item as `add-actor-items.py` sees it: a display name, the
`type` discriminator string, and the kind-specific `system` payload. -/
structure Item where
  name : String
  type : String
  data : ItemData
deriving DecidableEq, Repr

/-!
## Record builders (`make_skill`, `make_talent`, `make_trait`, `make_power`)
-/

/-- One skill record of `make_skill` (lines 180–223); `img`/`_id` omitted. -/
def mkSkillItem (nm : List Char) (linked : String) (adv : Nat)
    (isSpec : Bool) (spec : List Char) : Item :=
  ⟨⟨nm⟩, "skill", ItemData.skillData ⟨"", linked, adv, isSpec, ⟨spec⟩⟩⟩

/-- `make_skill(entry)` (lines 156–223): parse `'Command +20'` or
`'Forbidden Lore (Warp, Daemonology) +20'` into one or more skill records. -/
def make_skill (entry0 : String) : List Item :=
  let entry := rstripDots (pyStrip entry0.data)
  let advancement : Nat :=
    match trailingPlusNum entry with
    | some (n, _) => n / 10
    | none => 0
  let name : List Char :=
    match trailingPlusNum entry with
    | some (_, pre) => pyStrip pre
    | none => entry
  match matchParenGen name with
  | some (baseName, innerRaw) =>
      let specText := pyStrip innerRaw
      let linked := tableGet skillCharsTable ⟨baseName⟩ "int"
      if specText.contains ',' then
        (pySplitChar ',' specText).map (fun sp =>
          let sp' := pyStrip sp
          mkSkillItem (baseName ++ (' ' :: '(' :: sp') ++ [')']) linked advancement true sp')
      else
        [mkSkillItem name linked advancement true specText]
  | none =>
      [mkSkillItem name (tableGet skillCharsTable ⟨name⟩ "int") advancement false []]

/-- `make_talent(entry)` (lines 226–243). -/
def make_talent (entry0 : String) : Item :=
  let name := rstripDots (pyStrip entry0.data)
  let specialist := (matchParenGen name).isSome
  ⟨⟨name⟩, "talent", ItemData.talentData ⟨"", 1, [], "", specialist⟩⟩

/-- `make_trait(entry, description)` (lines 246–290): rating extraction tries
a bare `(N)`, then `(xN)`, then any parenthetical with an embedded integer,
then falls back to rating 0; the category comes from `TRAIT_CATEGORIES`. -/
def make_trait (entry0 descr : String) : Item :=
  let name := rstripDots (pyStrip entry0.data)
  let hrc : Bool × Nat × String :=
    match matchParenNum name with
    | some (base, n) => (true, n, tableGet traitCategoriesTable ⟨base⟩ "")
    | none =>
      match matchParenX name with
      | some (base, n) => (true, n, tableGet traitCategoriesTable ⟨base⟩ "")
      | none =>
        match matchParenGen name with
        | some (base, innerRaw) =>
            let category := tableGet traitCategoriesTable ⟨base⟩ ""
            match firstNumber (pyStrip innerRaw) with
            | some n => (true, n, category)
            | none => (false, 0, category)
        | none => (false, 0, tableGet traitCategoriesTable ⟨name⟩ "")
  ⟨⟨name⟩, "trait", ItemData.traitData ⟨descr, [], hrc.1, hrc.2.1, hrc.2.2⟩⟩

/-- `re.search(r'(\d+m\s*(?:cone|radius)?)', desc)`: first occurrence of a
digit run followed by `m`, greedily extended by whitespace and an optional
`cone`/`radius` word (the whitespace stays in the match even when no word
follows, exactly as the Python pattern behaves). -/
def findRangeTok : List Char → Option (List Char)
  | [] => none
  | c :: rest =>
      let ds := (c :: rest).takeWhile isDigitC
      let afterDs := (c :: rest).drop ds.length
      if !ds.isEmpty && afterDs.head? = some 'm' then
        let afterM := afterDs.drop 1
        let ws := afterM.takeWhile pyIsWs
        let rem := afterM.drop ws.length
        if "cone".data.isPrefixOf rem then
          some (ds ++ 'm' :: ws ++ "cone".data)
        else if "radius".data.isPrefixOf rem then
          some (ds ++ 'm' :: ws ++ "radius".data)
        else
          some (ds ++ 'm' :: ws)
      else findRangeTok rest

/-- The ASCII upper-case → lower-case pairs. -/
def lowerPairs : List (Char × Char) :=
  [('A','a'), ('B','b'), ('C','c'), ('D','d'), ('E','e'), ('F','f'),
   ('G','g'), ('H','h'), ('I','i'), ('J','j'), ('K','k'), ('L','l'),
   ('M','m'), ('N','n'), ('O','o'), ('P','p'), ('Q','q'), ('R','r'),
   ('S','s'), ('T','t'), ('U','u'), ('V','v'), ('W','w'), ('X','x'),
   ('Y','y'), ('Z','z')]

/-- ASCII model of Python `str.lower()` on one character (the data holds no
cased non-ASCII characters). -/
def lowerCharA (c : Char) : Char := (lowerPairs.lookup c).getD c

/-- Python `str.lower()` on a character list (ASCII model). -/
def pyLower (l : List Char) : List Char := l.map lowerCharA

/-- Python `needle in haystack` on strings (substring containment). -/
def pyIn (needle : List Char) : List Char → Bool
  | [] => needle.isEmpty
  | c :: tl => needle.isPrefixOf (c :: tl) || pyIn needle tl

/-- `make_power(...)` (lines 293–313) as called from `process_actor`
(lines 396–413), inference from the description included:
discipline from `POWER_DISCIPLINES`, action `"Full Action"` only when that
literal phrase occurs, `sustained = "Half Action"` only when the word
`sustained` occurs case-insensitively, and range from the first numeric
distance token, falling back to `"Touch"`. -/
def mkPowerFromPair (pwName pwDesc : String) : Item :=
  let discipline := tableGet powerDisciplinesTable pwName ""
  let action := if pyIn "Full Action".data pwDesc.data then "Full Action" else "Half Action"
  let sustained :=
    if pyIn "sustained".data (pyLower pwDesc.data) then PyStrOrBool.str "Half Action"
    else PyStrOrBool.bool false
  let rangeStr : String :=
    match findRangeTok pwDesc.data with
    | some tok => ⟨tok⟩
    | none => if pyIn "touch".data (pyLower pwDesc.data) then "Touch" else ""
  ⟨pwName, "power",
    ItemData.powerData ⟨pwDesc, discipline, 200, "", "wp", 0, rangeStr,
      sustained, action, "", false⟩⟩

/-!
## `process_actor` — item regeneration (lines 356–432)

The section-location step (`extract_section`, `extract_special_abilities`,
`extract_psychic_powers`) locates spans of the narrative text with regular
expressions and hands lists of entry strings, special-ability pairs and
psychic-power pairs to the loop below; `buildNewItems` takes those lists as
inputs (the spec's SectionExtractor outputs) and mirrors lines 368–413,
and `processActorItems` mirrors the replacement block of lines 415–424.
-/

/-- `item["name"].split("(")[0].strip()` — the base name used by the
special-ability dedup check (lines 388–391). -/
def pyBaseName (s : String) : String :=
  ⟨pyStrip (s.data.takeWhile (· ≠ '('))⟩

/-- Lines 368–413 of `add-actor-items.py`: build the fresh item list from the
parsed SKILLS / TALENTS / TRAITS entries, the SPECIAL ABILITIES pairs (added
as traits unless a trait with the same base name is already present) and the
PSYCHIC POWERS pairs. -/
def buildNewItems (skillEntries talentEntries traitEntries : List String)
    (specialAbilities psychicPowers : List (String × String)) : List Item :=
  let items1 := skillEntries.flatMap make_skill
    ++ talentEntries.map make_talent
    ++ traitEntries.map (fun e => make_trait e "")
  let items2 := specialAbilities.foldl
    (fun acc nd =>
      let already := acc.any (fun i =>
        i.type = "trait" && pyBaseName i.name = pyBaseName nd.1)
      if already then acc else acc ++ [make_trait nd.1 nd.2]) items1
  items2 ++ psychicPowers.map (fun nd => mkPowerFromPair nd.1 nd.2)

/-- The item kinds `process_actor` regenerates (`item_types_to_add`). -/
def regenKind (t : String) : Bool :=
  t = "skill" || t = "talent" || t = "trait" || t = "power"

/-- Lines 415–424 of `add-actor-items.py`: only when at least one fresh item
was derived, drop every existing skill/talent/trait/power item and append the
fresh ones (`none` models an actor without an `"items"` key). -/
def processActorItems (cur : Option (List Item)) (newItems : List Item) :
    Option (List Item) :=
  if newItems.isEmpty then cur
  else some ((cur.getD []).filter (fun i => !regenKind i.type) ++ newItems)

/-- The whole item-regeneration step of `process_actor`: extraction outputs
in, updated embedded-item list out. -/
def process_actor_items (cur : Option (List Item))
    (skillEntries talentEntries traitEntries : List String)
    (specialAbilities psychicPowers : List (String × String)) :
    Option (List Item) :=
  processActorItems cur
    (buildNewItems skillEntries talentEntries traitEntries specialAbilities psychicPowers)

/-!
## Data model of `fix-actor-data.py`

One structure `FixItemSys` stands for an embedded item's `system`
dictionary; all keys the three fix/refactor passes ever read or write are
`Option` fields (a `none` field is an absent key).  JSON values that the
code discriminates with `isinstance` become inductive types.  Numbers are
`Int` (the data holds no floats in the fields concerned).
-/

/-- ASCII model of Python `str.upper()` on one character. -/
def upperCharA (c : Char) : Char :=
  match c with
  | 'a' => 'A' | 'b' => 'B' | 'c' => 'C' | 'd' => 'D' | 'e' => 'E'
  | 'f' => 'F' | 'g' => 'G' | 'h' => 'H' | 'i' => 'I' | 'j' => 'J'
  | 'k' => 'K' | 'l' => 'L' | 'm' => 'M' | 'n' => 'N' | 'o' => 'O'
  | 'p' => 'P' | 'q' => 'Q' | 'r' => 'R' | 's' => 'S' | 't' => 'T'
  | 'u' => 'U' | 'v' => 'V' | 'w' => 'W' | 'x' => 'X' | 'y' => 'Y'
  | 'z' => 'Z' | c => c

/-- Python `int(str)`: strip, optional sign, non-empty digit run
(underscore-grouping, which the data never uses, is not modelled). -/
def pyParseIntOpt (l : List Char) : Option Int :=
  let t := pyStrip l
  let core : List Char → Option Nat := fun ds =>
    if !ds.isEmpty && ds.all isDigitC then some (digitsToNat ds) else none
  match t with
  | '+' :: ds => (core ds).map Int.ofNat
  | '-' :: ds => (core ds).map (fun n => -(n : Int))
  | ds => (core ds).map Int.ofNat

/-- A weapon's rate-of-fire object `{"single": …, "semi": …, "full": …}`. -/
structure Rof where
  single : Bool
  semi : Int
  full : Int
deriving DecidableEq, Repr

/-- `parse_rof(rof_str)` (lines 89–108 of `fix-actor-data.py`). -/
def parse_rof (s : String) : Rof :=
  if s.data.isEmpty then ⟨false, 0, 0⟩
  else
    match pySplitChar '/' s.data with
    | [p0, p1, p2] =>
        let single := (pyStrip p0).map upperCharA = "S".data
        let semi := let t := pyStrip p1
                    if t = ['-'] then 0 else (pyParseIntOpt t).getD 0
        let full := let t := pyStrip p2
                    if t = ['-'] then 0 else (pyParseIntOpt t).getD 0
        ⟨single, semi, full⟩
    | _ => ⟨true, 0, 0⟩

/-- A weapon's `damage` value: either a plain string (legacy) or the
structured `{"formula", "type", "bonus"}` object. -/
inductive DamageVal where
  | asStr (s : String)
  | asObj (formula : String) (dtype : String) (bonus : Int)
deriving DecidableEq, Repr

/-- A `clip`/`magazine` value: a bare number (legacy) or `{"value","max"}`. -/
inductive ClipVal where
  | num (n : Int)
  | obj (value max : Int)
deriving DecidableEq, Repr

/-- A per-body-location armour mapping; a `none` field is an absent key
(reads go through `.get(key, 0)`). -/
structure LocMap where
  head : Option Int
  rightArm : Option Int
  leftArm : Option Int
  body : Option Int
  rightLeg : Option Int
  leftLeg : Option Int
deriving DecidableEq, Repr

/-- The empty armour-location dictionary `{}`. -/
def emptyLoc : LocMap := ⟨none, none, none, none, none, none⟩

/-- Read every location with `.get(key, 0)` and build the full six-key
mapping, as `fix_actor_armour` / `fix_armour_item` do. -/
def fullLoc (m : LocMap) : LocMap :=
  ⟨some (m.head.getD 0), some (m.rightArm.getD 0), some (m.leftArm.getD 0),
   some (m.body.getD 0), some (m.rightLeg.getD 0), some (m.leftLeg.getD 0)⟩

/-- The uniform mapping `{"head": v, …, "leftLeg": v}`. -/
def uniformLoc (v : Int) : LocMap :=
  ⟨some v, some v, some v, some v, some v, some v⟩

/-- An actor-level `armour` value: the legacy `{"value": X, …}` dictionary
(the key test is `"value" in old_armour`) or a per-location mapping. -/
inductive ArmourJson where
  | withValue (v : Int)
  | locs (m : LocMap)
deriving DecidableEq, Repr

/-- One characteristic value: a `{base/value/advances}` dictionary or a
bare number. -/
inductive CharVal where
  | obj (base value advances : Option Int)
  | num (n : Int)
deriving DecidableEq, Repr

/-- The legacy `movement` dictionary (an actor with an empty `movement`
dictionary behaves exactly like one without the key — both are falsy and
popped — and is modelled as `none`). -/
structure Movement where
  half : Option Int
  full : Option Int
  charge : Option Int
  run : Option Int
deriving DecidableEq, Repr

/-- The `details` sub-dictionary written by `fix_actor`. -/
structure Details where
  homeworld : String
  background : String
  role : String
  divination : String
  notes : String
deriving DecidableEq, Repr

/-- An embedded item's `system` dictionary: every key read or written by
`fix_weapon`, `fix_armour_item`, `fix_gear_item` or `refactor_weapon`.
The JSON key `"class"` is the field `cls` (`class` is reserved in Lean). -/
structure FixItemSys where
  description : Option String
  cls : Option String
  range : Option Int
  rof : Option Rof
  rateOfFire : Option String
  damage : Option DamageVal
  damageType : Option String
  penetration : Option Int
  clip : Option ClipVal
  magazine : Option ClipVal
  reload : Option String
  weight : Option Int
  qualities : Option (List String)
  special : Option String
  equipped : Option Bool
  availability : Option String
  ap : Option LocMap
  locations : Option LocMap
  maxAgility : Option Int
  quantity : Option Int
  craftsmanship : Option String
  weaponGroup : Option String
  loadedAmmoId : Option String
  loadedMagazineName : Option String
  loadedRounds : Option (List String)
  reloadProgress : Option Int
  rules : Option (List Rule)
  loadType : Option String
deriving DecidableEq, Repr

/-- The all-absent `system` dictionary (fresh `fixed = {}`). -/
def emptySys : FixItemSys :=
  ⟨none, none, none, none, none, none, none, none, none, none, none, none,
   none, none, none, none, none, none, none, none, none, none, none, none,
   none, none, none, none⟩

/-- An embedded item as the fix/refactor scripts see it. -/
structure FixItem where
  name : String
  type : String
  system : FixItemSys
deriving DecidableEq, Repr

/-- An actor's `system` dictionary: every key `fix_actor` touches. -/
structure SystemData where
  characteristics : Option (List (String × CharVal))
  armour : Option ArmourJson
  fate : Option (Int × Int)
  fatigue : Option Int
  corruption : Option Int
  insanity : Option Int
  influence : Option Int
  xp : Option (Int × Int)
  aptitudes : Option (List String)
  defeated : Option Bool
  notes : Option String
  description : Option String
  threatRating : Option String
  movement : Option Movement
  details : Option Details
deriving DecidableEq, Repr

/-- An actor document (an absent `system` key behaves like an empty one and
is modelled as the all-`none` `SystemData`). -/
structure Actor where
  system : SystemData
  items : Option (List FixItem)
deriving DecidableEq, Repr

/-!
## Transforms of `fix-actor-data.py`
-/

/-- `WEAPON_CLASS_MAP` (lines 27–33). -/
def weaponClassMapTable : List (String × String) :=
  [("Melee", "melee"), ("Pistol", "ranged"), ("Basic", "ranged"),
   ("Heavy", "ranged"), ("Thrown", "thrown")]

/-- `DAMAGE_TYPE_MAP` (lines 20–25). -/
def damageTypeMapTable : List (String × String) :=
  [("E", "energy"), ("R", "rending"), ("I", "impact"), ("X", "explosive")]

/-- `fix_characteristics(chars)` (lines 36–46). -/
def fix_characteristics (cs : List (String × CharVal)) : List (String × CharVal) :=
  cs.map (fun kv =>
    (kv.1,
     match kv.2 with
     | CharVal.obj b v a => CharVal.obj (some (b.getD (v.getD 25))) none (some (a.getD 0))
     | CharVal.num n => CharVal.obj (some n) none (some 0)))

/-- `fix_actor_armour(actor)` (lines 49–86): prefer the first embedded armour
item's `ap`/`locations`; otherwise expand a legacy `{"value": X}` uniformly;
otherwise return the all-zero mapping. -/
def fix_actor_armour (a : Actor) : LocMap :=
  match (a.items.getD []).find? (fun i => i.type = "armour") with
  | some it => fullLoc ((it.system.ap <|> it.system.locations).getD emptyLoc)
  | none =>
      match a.system.armour with
      | some (ArmourJson.withValue v) => uniformLoc v
      | _ => uniformLoc 0

/-- `fix_weapon(item_sys)` (lines 111–180): rebuild the weapon `system`
dictionary in the current shape. -/
def fix_weapon (s : FixItemSys) : FixItemSys :=
  let rawClass := s.cls.getD "melee"
  let clsVal := tableGet weaponClassMapTable rawClass ⟨pyLower rawClass.data⟩
  let rofVal : Rof :=
    match s.rof with
    | some r => r
    | none =>
        match s.rateOfFire with
        | some str => parse_rof str
        | none => ⟨false, 0, 0⟩
  let mkDamageObj : String → DamageVal := fun dstr =>
    let dtype := s.damageType.getD "I"
    DamageVal.asObj dstr (tableGet damageTypeMapTable dtype ⟨pyLower dtype.data⟩) 0
  let damageVal : DamageVal :=
    match s.damage with
    | some (DamageVal.asObj f t b) => DamageVal.asObj f t b
    | some (DamageVal.asStr x) => mkDamageObj x
    | none => mkDamageObj "1d10"
  let clipVal : ClipVal :=
    match s.clip with
    | some (ClipVal.obj v m) => ClipVal.obj v m
    | some (ClipVal.num n) => ClipVal.obj n n
    | none => ClipVal.obj 0 0
  let qualitiesVal : List String :=
    match s.qualities with
    | some qs => qs
    | none =>
        match s.special with
        | some sp =>
            if sp ≠ "" then
              (((pySplitChar ',' sp.data).map pyStrip).filter (fun q => q ≠ [])).map
                (fun q => (⟨q⟩ : String))
            else []
        | none => []
  { emptySys with
      description := some (s.description.getD ""),
      cls := some clsVal,
      range := some (s.range.getD 0),
      rof := some rofVal,
      damage := some damageVal,
      penetration := some (s.penetration.getD 0),
      clip := some clipVal,
      reload := some (s.reload.getD ""),
      weight := some (s.weight.getD 0),
      qualities := some qualitiesVal,
      equipped := some (s.equipped.getD true),
      availability := s.availability }

/-- `fix_armour_item(item_sys)` (lines 183–208). -/
def fix_armour_item (s : FixItemSys) : FixItemSys :=
  { emptySys with
      description := some (s.description.getD ""),
      locations := some (fullLoc ((s.ap <|> s.locations).getD emptyLoc)),
      maxAgility := some (s.maxAgility.getD 0),
      qualities := some (s.qualities.getD []),
      weight := some (s.weight.getD 0),
      equipped := some (s.equipped.getD true),
      availability := s.availability }

/-- `fix_gear_item(item_sys)` (lines 211–221). -/
def fix_gear_item (s : FixItemSys) : FixItemSys :=
  { emptySys with
      description := some (s.description.getD ""),
      weight := some (s.weight.getD 0),
      quantity := some (s.quantity.getD 1),
      availability := s.availability }

/-- The per-item dispatch of `fix_actor` step 5 (lines 287–299). -/
def fix_item (i : FixItem) : FixItem :=
  if i.type = "weapon" then { i with system := fix_weapon i.system }
  else if i.type = "armour" then { i with system := fix_armour_item i.system }
  else if i.type = "gear" then { i with system := fix_gear_item i.system }
  else i

/-- `build_notes`-style parts list shared by `fix_actor` (lines 259–274) and
`build_notes` of `add-actor-items.py`: description, threat-rating line,
movement line, then the old notes, empty/falsy pieces skipped. -/
def notesParts (oldDesc oldThreat : String) (mv : Option Movement)
    (oldNotes : String) : List String :=
  (if oldDesc ≠ "" then [oldDesc] else [])
  ++ (if oldThreat ≠ "" then ["\nTHREAT RATING: " ++ oldThreat] else [])
  ++ (match mv with
      | some m =>
          ["\nMOVEMENT: Half " ++ toString (m.half.getD 0)
            ++ ", Full " ++ toString (m.full.getD 0)
            ++ ", Charge " ++ toString (m.charge.getD 0)
            ++ ", Run " ++ toString (m.run.getD 0)]
      | none => [])
  ++ (if oldNotes ≠ "" then ["\n" ++ oldNotes] else [])

/-- `fix_actor(actor)` (lines 224–302): characteristics, armour, template
defaults, the details/notes rebuild, and the per-item fixes. -/
def fix_actor (a : Actor) : Actor :=
  let sys := a.system
  let sys :=
    match sys.characteristics with
    | some cs => { sys with characteristics := some (fix_characteristics cs) }
    | none => sys
  let sys := { sys with armour := some (ArmourJson.locs (fix_actor_armour a)) }
  let sys := { sys with
      fate := some (sys.fate.getD (0, 0)),
      fatigue := some (sys.fatigue.getD 0),
      corruption := some (sys.corruption.getD 0),
      insanity := some (sys.insanity.getD 0),
      influence := some (sys.influence.getD 0),
      xp := some (sys.xp.getD (0, 0)),
      aptitudes := some (sys.aptitudes.getD []),
      defeated := some (sys.defeated.getD false) }
  let oldNotes := sys.notes.getD ""
  let oldDesc := sys.description.getD ""
  let oldThreat := sys.threatRating.getD ""
  let oldMovement := sys.movement
  let combined := String.intercalate "\n" (notesParts oldDesc oldThreat oldMovement oldNotes)
  let dts : Details := ⟨"", "", if oldThreat ≠ "" then oldThreat else "", "", combined⟩
  let sys := { sys with
      notes := none, threatRating := none, movement := none, details := some dts }
  ⟨sys, a.items.map (fun l => l.map fix_item)⟩

/-!
## `refactor-data.py`: slugs, trait parsing, rule derivation, weapons
-/

/-- Lower-case ASCII letter or digit (the class `[a-z0-9]` of `slugify`). -/
def isLowerAlnum (c : Char) : Bool :=
  ('a' ≤ c && c ≤ 'z') || ('0' ≤ c && c ≤ '9')

/-- Replace every character outside `[a-z0-9]` by `-`, collapsing runs. -/
def slugCollapse : List Char → List Char
  | [] => []
  | c :: rest =>
      if isLowerAlnum c then c :: slugCollapse rest
      else
        match slugCollapse rest with
        | '-' :: t => '-' :: t
        | t => '-' :: t

/-- Python `str.strip('-')`. -/
def stripDashes (l : List Char) : List Char :=
  ((l.dropWhile (· = '-')).reverse.dropWhile (· = '-')).reverse

/-- `slugify(name)` (lines 27–29 of `refactor-data.py`):
`re.sub(r'[^a-z0-9]+', '-', name.lower()).strip('-')`. -/
def slugify (name : String) : String :=
  ⟨stripDashes (slugCollapse (pyLower name.data))⟩

/-- `parse_trait_name(name)` (lines 32–52): `'Fear (4)'`, `'Unnatural
Strength (x2)'` or `'Size (Hulking)'` → base name and numeric rating. -/
def parse_trait_name (name : String) : String × Nat :=
  match matchParenNum name.data with
  | some (b, n) => (⟨b⟩, n)
  | none =>
      match matchParenX name.data with
      | some (b, n) => (⟨b⟩, n)
      | none =>
          match matchParenGen name.data with
          | some (b, inner) => (⟨b⟩, (firstNumber (pyStrip inner)).getD 0)
          | none => (⟨pyStrip name.data⟩, 0)

/-- `re.match(r'^Size\s*\((.+?)\)$', name)`: the size-category text. -/
def matchSizeParen (s : List Char) : Option (List Char) :=
  if "Size".data.isPrefixOf s then
    let rest := (s.drop 4).dropWhile pyIsWs
    match rest with
    | '(' :: tl =>
        let inner := tl.dropLast
        if tl.getLast? = some ')' && !inner.isEmpty && !inner.contains '\n' then
          some inner
        else none
    | _ => none
  else none

/-- A `FlatModifier` rule with the symbolic value `"rating"`. -/
def Rule.flatRating (dom : String) : Rule :=
  ⟨"FlatModifier", none, some dom, some "rating", none, none, none⟩

/-- An `AdjustToughness` rule with mode `add` and value `"rating"`. -/
def Rule.adjustToughness : Rule :=
  ⟨"AdjustToughness", none, none, some "rating", some "add", none, none⟩

/-- A half-damage `Resistance` rule for one damage type. -/
def Rule.resistHalf (dt : String) : Rule :=
  ⟨"Resistance", none, none, none, some "half", some dt, none⟩

/-- The name list of the big shared `RollOption` branch (lines 134–137). -/
def plainRollOptionTraits : List String :=
  ["Flyer", "Toxic", "Shambling", "Quadruped", "Bestial",
   "Undying", "Warp Instability", "Warp-Touched",
   "Multiple Arms", "Mechanicus Implants", "Psyker",
   "Warp Seer", "Disturbing", "Warp-Animated"]

/-- `get_trait_rules_and_immunities(name, rating)` (lines 55–144): the
table mapping a trait base name to its rule effects and immunity grants.
The source re-parses the rating from `name` and shadows the `rating`
argument with it, but never uses the result; the dead binding is kept. -/
def get_trait_rules_and_immunities (name : String) (rating : Int) :
    List Rule × List String :=
  let base := (parse_trait_name name).1
  let parsedRating := (parse_trait_name name).2
  let _rating : Int := if parsedRating ≠ 0 then (parsedRating : Int) else rating
  if base = "Fear" then ([Rule.rollOption "self:fear"], [])
  else if base = "Dark Sight" then ([Rule.rollOption "self:dark-sight"], [])
  else if base = "Unnatural Strength" then ([Rule.flatRating "damage"], [])
  else if base = "Unnatural Toughness" then ([Rule.adjustToughness], [])
  else if base = "Unnatural Willpower" then ([Rule.flatRating "characteristic:wp"], [])
  else if base = "Unnatural Agility" then ([Rule.flatRating "characteristic:ag"], [])
  else if base = "From Beyond" then
    ([Rule.rollOption "self:from-beyond"], ["Fear", "Pinning", "Insanity"])
  else if base = "Regeneration" then ([Rule.rollOption "self:regeneration"], [])
  else if base = "Natural Armor" || base = "Natural Armour" then
    ([Rule.flatRating "armour"], [])
  else if base = "Daemonic" then
    ([Rule.adjustToughness, Rule.rollOption "self:daemonic"],
     ["Fear", "Pinning", "Disease", "Poison"])
  else if base = "Machine" then
    ([Rule.flatRating "armour", Rule.rollOption "self:machine"],
     ["Fear", "Pinning", "Disease", "Poison"])
  else if base = "Mindless" then
    ([Rule.rollOption "self:mindless"], ["Fear", "Pinning", "psychic-mind"])
  else if base = "Fearless" then ([Rule.rollOption "self:fearless"], ["Fear"])
  else if base = "Stuff of Nightmares" then
    ([Rule.rollOption "self:stuff-of-nightmares"], ["critical", "bleeding", "stun"])
  else if base = "Incorporeal" then
    ([Rule.resistHalf "impact", Rule.resistHalf "rending",
      Rule.resistHalf "explosive", Rule.rollOption "self:incorporeal"], [])
  else if base = "Brutal Charge" then
    ([⟨"FlatModifier", none, some "damage", some "rating", none, none,
       some ["action:charge"]⟩], [])
  else if base = "Size" then
    let cat := match matchSizeParen name.data with
      | some inner => slugify ⟨inner⟩
      | none => "average"
    ([Rule.rollOption ("self:size:" ++ cat)], [])
  else if plainRollOptionTraits.contains base then
    ([Rule.rollOption ("self:" ++ slugify base)], [])
  else
    ([Rule.rollOption ("self:" ++ slugify base)], [])

/-- `refactor_weapon(sys)` (lines 149–176): rename `clip` to `magazine`,
fill missing template fields, infer `loadType`, and force `rof.single`
for melee weapons whose `rof` value is a mapping. -/
def refactor_weapon (s : FixItemSys) : FixItemSys :=
  let s :=
    if s.clip.isSome && s.magazine.isNone then
      { s with magazine := s.clip, clip := none }
    else s
  let s := { s with magazine := some (s.magazine.getD (ClipVal.obj 0 0)) }
  let s := { s with
      craftsmanship := some (s.craftsmanship.getD "common"),
      weaponGroup := some (s.weaponGroup.getD ""),
      loadedAmmoId := some (s.loadedAmmoId.getD ""),
      loadedMagazineName := some (s.loadedMagazineName.getD ""),
      loadedRounds := some (s.loadedRounds.getD []),
      reloadProgress := some (s.reloadProgress.getD 0),
      rules := some (s.rules.getD []) }
  let s :=
    if s.loadType.isNone then
      let maxVal : Int :=
        match s.magazine with
        | some (ClipVal.obj _ m) => m
        | _ => 0
      let isRanged := s.cls = some "ranged" || s.cls = some "thrown"
      { s with loadType := some (if isRanged && maxVal > 0 then "magazine" else "") }
    else s
  if s.cls = some "melee" then
    match s.rof with
    | some r => if !r.single then { s with rof := some { r with single := true } } else s
    | none => s
  else s

/-!
## Helper definitions used by the theorems
-/

/-- The base name whose `SKILL_CHARS` lookup decides a skill entry's linked
characteristic: group 1 of the specialization match when the (cleaned,
`+N`-stripped) name ends in a parenthetical, the whole name otherwise. -/
def skill_base (entry0 : String) : String :=
  let entry := rstripDots (pyStrip entry0.data)
  let name :=
    match trailingPlusNum entry with
    | some (_, pre) => pyStrip pre
    | none => entry
  match matchParenGen name with
  | some (baseName, _) => ⟨baseName⟩
  | none => ⟨name⟩

/-- The linked characteristic of a generated item, when it is a skill. -/
def itemLinked (i : Item) : Option String :=
  match i.data with
  | ItemData.skillData d => some d.linkedCharacteristic
  | _ => none

/-- The trait payload of a generated item, when it is a trait. -/
def itemTrait (i : Item) : Option TraitSys :=
  match i.data with
  | ItemData.traitData d => some d
  | _ => none

/-- The all-`none` actor `system` dictionary. -/
def sysNone : SystemData :=
  ⟨none, none, none, none, none, none, none, none, none, none,
   none, none, none, none, none⟩

/-- A pre-migration actor holding both a description and legacy notes:
`{"system": {"notes": "N", "description": "D", "threatRating": "T"}}`. -/
def actorDN : Actor :=
  ⟨{ sysNone with notes := some "N", description := some "D",
                  threatRating := some "T" }, none⟩

/-- An already-migrated actor whose armour is the uniform per-location
mapping with value 3 and which embeds no armour item. -/
def actorArm3 : Actor :=
  ⟨{ sysNone with armour := some (ArmourJson.locs (uniformLoc 3)) }, none⟩

/-- A stale derived trait record, as left behind by an earlier run. -/
def staleTrait (nm : String) : Item :=
  ⟨nm, "trait", ItemData.traitData ⟨"", [], false, 0, ""⟩⟩

/-- A melee weapon `system` dictionary whose `rof` mapping has
`single = False`. -/
def meleeWeaponSys : FixItemSys :=
  { emptySys with cls := some "melee", rof := some ⟨false, 2, 0⟩ }

/-!
## Helper lemmas
-/

theorem pySplitChar_ne_nil (sep : Char) (l : List Char) : pySplitChar sep l ≠ [] := by
  induction l with
  | nil => simp [pySplitChar]
  | cons c rest ih =>
      simp only [pySplitChar]
      split
      · simp
      · cases h : pySplitChar sep rest with
        | nil => simp
        | cons a t => simp

theorem srpGo_all_ne_empty (l : List Char) (d : Int) (cur : List Char) (acc : List String) :
    ∀ r ∈ srpGo l d cur acc, r ≠ "" := by
  induction l generalizing d cur acc with
  | nil =>
      intro r hr
      simp only [srpGo] at hr
      exact (List.mem_filter.mp hr).2 |> fun h => by simpa using h
  | cons c rest ih =>
      intro r hr
      simp only [srpGo] at hr
      split at hr
      · exact ih _ _ _ r hr
      · split at hr
        · exact ih _ _ _ r hr
        · split at hr
          · exact ih _ _ _ r hr
          · exact ih _ _ _ r hr

theorem lookup_pair_mem {c v : Char} (h : lowerPairs.lookup c = some v) :
    (c, v) ∈ lowerPairs := by
  obtain ⟨l1, l2, heq, -⟩ := List.lookup_eq_some_iff.mp h
  rw [heq]
  exact List.mem_append_right _ (List.mem_cons_self _ _)

theorem lowerPairs_props : ∀ p ∈ lowerPairs,
    lowerPairs.lookup p.2 = none ∧ p.2 ≠ 'M' ∧ p.2 ≠ 'P' ∧ p.2 ≠ 'B' ∧
    p.2 ≠ 'H' ∧ p.2 ≠ 'T' := by decide

theorem lowerCharA_idem (c : Char) : lowerCharA (lowerCharA c) = lowerCharA c := by
  unfold lowerCharA
  cases h : lowerPairs.lookup c with
  | none => simp [h]
  | some v =>
      have := (lowerPairs_props _ (lookup_pair_mem h)).1
      simp [h, this]

theorem lowerCharA_ne (c : Char) :
    lowerCharA c ≠ 'M' ∧ lowerCharA c ≠ 'P' ∧ lowerCharA c ≠ 'B' ∧
    lowerCharA c ≠ 'H' ∧ lowerCharA c ≠ 'T' := by
  unfold lowerCharA
  cases h : lowerPairs.lookup c with
  | none =>
      simp only [Option.getD_none]
      refine ⟨?_, ?_, ?_, ?_, ?_⟩ <;>
        · intro hc
          rw [hc] at h
          exact absurd h (by decide)
  | some v =>
      have hp := lowerPairs_props _ (lookup_pair_mem h)
      simpa using ⟨hp.2.1, hp.2.2.1, hp.2.2.2.1, hp.2.2.2.2.1, hp.2.2.2.2.2⟩

theorem pyLower_idem (l : List Char) : pyLower (pyLower l) = pyLower l := by
  simp only [pyLower, List.map_map]
  exact List.map_congr_left (fun a _ => lowerCharA_idem a)

theorem pyLower_ne_classKey (l : List Char) :
    (⟨pyLower l⟩ : String) ≠ "Melee" ∧ (⟨pyLower l⟩ : String) ≠ "Pistol" ∧
    (⟨pyLower l⟩ : String) ≠ "Basic" ∧ (⟨pyLower l⟩ : String) ≠ "Heavy" ∧
    (⟨pyLower l⟩ : String) ≠ "Thrown" := by
  cases l with
  | nil => refine ⟨?_, ?_, ?_, ?_, ?_⟩ <;> decide
  | cons c t =>
      have hne := lowerCharA_ne c
      refine ⟨?_, ?_, ?_, ?_, ?_⟩ <;>
        · intro h
          rw [String.ext_iff] at h
          simp only [pyLower, List.map] at h
          exact absurd (List.head_eq_of_cons_eq h) (by
            first
            | exact hne.1 | exact hne.2.1 | exact hne.2.2.1
            | exact hne.2.2.2.1 | exact hne.2.2.2.2)

theorem one_le_make_skill_length (e : String) : 1 ≤ (make_skill e).length := by
  simp only [make_skill]
  split
  · rename_i baseName innerRaw heq
    split
    · rw [List.length_map]
      have h := pySplitChar_ne_nil ',' (pyStrip innerRaw)
      exact Nat.one_le_iff_ne_zero.mpr (by simpa [List.length_eq_zero] using h)
    · simp
  · simp

theorem make_skill_linked (e : String) (i : Item) (hi : i ∈ make_skill e) :
    itemLinked i = some (tableGet skillCharsTable (skill_base e) "int") := by
  revert hi
  simp only [make_skill, skill_base]
  split
  · rename_i baseName innerRaw heq
    rw [heq]
    split
    · intro hi
      obtain ⟨sp, -, rfl⟩ := List.mem_map.mp hi
      rfl
    · intro hi
      rw [List.mem_singleton.mp hi]
      rfl
  · rename_i heq
    rw [heq]
    intro hi
    rw [List.mem_singleton.mp hi]
    rfl

/-!
## Claim theorems
-/

/-- C5.  Trait rating precedence in `make_trait`, first match wins: a
trailing `(N)` gives rating `N` with has-rating true (`"Fear (4)"` → 4);
else a trailing `(xN)` gives rating `N` with has-rating true
(`"Unnatural Strength (x2)"` → 2); else a trailing parenthetical whose
content embeds an integer gives that integer with has-rating true
(`"Toxic (2d10)"` → 2); otherwise rating 0 and has-rating false
(`"Size (Hulking)"`). -/
theorem make_trait_rating_precedence :
    itemTrait (make_trait "Fear (4)" "") = some ⟨"", [], true, 4, "mental"⟩ ∧
    itemTrait (make_trait "Unnatural Strength (x2)" "") =
      some ⟨"", [], true, 2, "physical"⟩ ∧
    itemTrait (make_trait "Size (Hulking)" "") = some ⟨"", [], false, 0, "physical"⟩ ∧
    itemTrait (make_trait "Toxic (2d10)" "") = some ⟨"", [], true, 2, ""⟩ := by
  refine ⟨?_, ?_, ?_, ?_⟩ <;> decide

/-- C6.  `split_respecting_parens` splits on commas only at parenthesis
nesting depth zero and discards empty or whitespace-only entries: the
example input tokenizes to exactly two entries, the first keeping its
internal comma, and no entry of any output is the empty string (stripped
whitespace-only pieces become empty and are filtered out). -/
theorem tokenizer_nesting :
    split_respecting_parens
        "Forbidden Lore (Warp, Daemonology), Scholastic Lore (Occult) +10" =
      ["Forbidden Lore (Warp, Daemonology)", "Scholastic Lore (Occult) +10"] ∧
    ∀ text : String, (split_respecting_parens text).all (fun r => !(r == "")) = true := by
  refine ⟨by decide, fun text => ?_⟩
  rw [List.all_eq_true]
  intro r hr
  simpa using srpGo_all_ne_empty text.data 0 [] [] r hr

/-- C9.  `get_trait_rules_and_immunities(name, rating)` does not depend on
the `rating` argument: the rating is re-parsed from `name` into a dead
binding and the rule values carry the literal placeholder `"rating"`. -/
theorem trait_rules_rating_independent (name : String) (r1 r2 : Int) :
    get_trait_rules_and_immunities name r1 = get_trait_rules_and_immunities name r2 := rfl

/-- C7.  `make_skill("Command +20")` yields exactly one record with
advancement tier 2 (20 integer-divided by 10), not a specialist, linked to
the `SKILL_CHARS` entry for `"Command"` (which is `"fel"`); and in general
every record produced by `make_skill` takes its linked characteristic from
the lookup table at the entry's base name, falling back to `"int"` when the
base name is unmapped (e.g. `"Xenoslore"`). -/
theorem skill_parsing (entry : String) (i : Item) (hi : i ∈ make_skill entry) :
    itemLinked i = some (tableGet skillCharsTable (skill_base entry) "int") ∧
    make_skill "Command +20" =
      [⟨"Command", "skill", ItemData.skillData ⟨"", "fel", 2, false, ""⟩⟩] ∧
    tableGet skillCharsTable "Command" "int" = "fel" ∧
    (make_skill "Xenoslore").map itemLinked = [some "int"] := by
  exact ⟨make_skill_linked entry i hi, by decide, by decide, by decide⟩

/-- Witness for C7 at the concrete entry `"Command +20"`. -/
theorem skill_parsing_witness :
    itemLinked ⟨"Command", "skill", ItemData.skillData ⟨"", "fel", 2, false, ""⟩⟩ =
      some (tableGet skillCharsTable (skill_base "Command +20") "int") :=
  (skill_parsing "Command +20"
    ⟨"Command", "skill", ItemData.skillData ⟨"", "fel", 2, false, ""⟩⟩ (by decide)).1

/-- C8.  Fallback safety: for every entry string—including unbalanced
parentheses—`make_skill` returns at least one record while `make_trait` and
`make_talent` each return exactly one record of their kind (they are total
functions into a single record); nothing is dropped and the fallback record
carries the base name with default characteristic/category and zero
rating, as the `"Daemonic (("` evaluations show. -/
theorem builder_fallback_safety :
    (∀ entry : String, 1 ≤ (make_skill entry).length) ∧
    (∀ entry descr : String,
      (make_trait entry descr).type = "trait" ∧ (make_talent entry).type = "talent") ∧
    make_trait "Daemonic ((" "" =
      ⟨"Daemonic ((", "trait", ItemData.traitData ⟨"", [], false, 0, ""⟩⟩ ∧
    make_talent "Daemonic ((" =
      ⟨"Daemonic ((", "talent", ItemData.talentData ⟨"", 1, [], "", false⟩⟩ ∧
    make_skill "Daemonic ((" =
      [⟨"Daemonic ((", "skill", ItemData.skillData ⟨"", "int", 0, false, ""⟩⟩] := by
  refine ⟨one_le_make_skill_length, fun entry descr => ⟨rfl, rfl⟩, ?_, ?_, ?_⟩ <;> decide

/-- C3.  Dedup precedence: a SPECIAL ABILITIES bullet whose base name (text
before the first parenthesis) matches the base name of a trait already
produced from the TRAITS section contributes nothing — the resulting item
list is exactly the one built without that bullet, so the only trait with
that base name is the TRAITS-derived one, whose description is empty
(`make_trait entry ""`). -/
theorem traits_win_dedup (sk tal tre : List String) (n d : String)
    (pp : List (String × String))
    (h : ∃ e ∈ tre, pyBaseName (make_trait e "").name = pyBaseName n) :
    buildNewItems sk tal tre [(n, d)] pp = buildNewItems sk tal tre [] pp := by
  obtain ⟨e, he, hbase⟩ := h
  simp only [buildNewItems, List.foldl]
  have hmem : make_trait e "" ∈
      sk.flatMap make_skill ++ tal.map make_talent ++ tre.map (fun e => make_trait e "") :=
    List.mem_append_right _ (List.mem_map_of_mem _ he)
  have hany : (sk.flatMap make_skill ++ tal.map make_talent
      ++ tre.map (fun e => make_trait e "")).any
        (fun i => i.type = "trait" && pyBaseName i.name = pyBaseName (n, d).1) = true :=
    List.any_eq_true.mpr
      ⟨_, hmem, by simp [hbase, show (make_trait e "").type = "trait" from rfl]⟩
  rw [hany]
  simp

/-- Witness for C3: the spec's example.  A TRAITS entry `"Regeneration"`
plus the bullet `"Regeneration — regrows lost limbs"` yield exactly one
trait record named `"Regeneration"`, the TRAITS-derived one, with an empty
description (and the table category `"physical"`). -/
theorem traits_win_dedup_witness :
    buildNewItems [] [] ["Regeneration"]
        [("Regeneration", "regrows lost limbs")] [] =
      [⟨"Regeneration", "trait", ItemData.traitData ⟨"", [], false, 0, "physical"⟩⟩] := by
  rw [traits_win_dedup [] [] ["Regeneration"] "Regeneration" "regrows lost limbs" []
    ⟨"Regeneration", by decide, by decide⟩]
  decide

theorem make_skill_type (e : String) (i : Item) (hi : i ∈ make_skill e) :
    i.type = "skill" := by
  revert hi
  simp only [make_skill]
  split
  · split
    · intro hi
      obtain ⟨sp, -, rfl⟩ := List.mem_map.mp hi
      rfl
    · intro hi
      rw [List.mem_singleton.mp hi]
      rfl
  · intro hi
    rw [List.mem_singleton.mp hi]
    rfl

theorem saFold_preserve (P : Item → Prop) (hP : ∀ n d, P (make_trait n d))
    (sa : List (String × String)) :
    ∀ acc : List Item, (∀ j ∈ acc, P j) →
      ∀ i ∈ sa.foldl (fun acc nd =>
        let already := acc.any (fun i =>
          i.type = "trait" && pyBaseName i.name = pyBaseName nd.1)
        if already then acc else acc ++ [make_trait nd.1 nd.2]) acc, P i := by
  induction sa with
  | nil => exact fun acc hacc i hi => hacc i hi
  | cons nd t ih =>
      intro acc hacc i hi
      simp only [List.foldl] at hi
      refine ih _ ?_ i hi
      intro j hj
      revert hj
      split
      · exact fun hj => hacc j hj
      · intro hj
        rcases List.mem_append.mp hj with hj | hj
        · exact hacc j hj
        · rw [List.mem_singleton.mp hj]; exact hP nd.1 nd.2

theorem buildNewItems_regen (sk tal tre : List String)
    (sa pp : List (String × String)) :
    ∀ i ∈ buildNewItems sk tal tre sa pp, regenKind i.type = true := by
  intro i hi
  simp only [buildNewItems] at hi
  rcases List.mem_append.mp hi with hi | hi
  · refine saFold_preserve (fun j => regenKind j.type = true)
      (fun n d => rfl) sa _ ?_ i hi
    intro j hj
    rcases List.mem_append.mp hj with hj | hj
    · rcases List.mem_append.mp hj with hj | hj
      · obtain ⟨e, -, he⟩ := List.mem_flatMap.mp hj
        rw [make_skill_type e j he]; rfl
      · obtain ⟨e, -, rfl⟩ := List.mem_map.mp hj
        rfl
    · obtain ⟨e, -, rfl⟩ := List.mem_map.mp hj
      rfl
  · obtain ⟨nd, -, rfl⟩ := List.mem_map.mp hi
    rfl

/-- C2 (amended).  When the fresh extraction yields at least one record,
`process_actor` removes every existing embedded record of the regenerated
kinds (skill, talent, trait, power) before appending the fresh set: the
regenerated-kind records of the result are exactly the freshly derived
ones.  (When the extraction yields no records, the replacement block is
skipped and existing records survive — see the counterexample.) -/
theorem regen_replace_amended (cur : Option (List Item)) (sk tal tre : List String)
    (sa pp : List (String × String))
    (h : buildNewItems sk tal tre sa pp ≠ []) :
    ((process_actor_items cur sk tal tre sa pp).getD []).filter
        (fun i => regenKind i.type) = buildNewItems sk tal tre sa pp := by
  simp only [process_actor_items, processActorItems]
  rw [if_neg (by simpa using h)]
  simp only [Option.getD_some]
  rw [List.filter_append]
  have h1 : ((cur.getD []).filter (fun i => !regenKind i.type)).filter
      (fun i => regenKind i.type) = [] := by
    rw [List.filter_filter]
    simp
  have h2 : (buildNewItems sk tal tre sa pp).filter (fun i => regenKind i.type) =
      buildNewItems sk tal tre sa pp :=
    List.filter_eq_self.mpr (buildNewItems_regen sk tal tre sa pp)
  rw [h1, h2, List.nil_append]

/-- Counterexample for C2 as stated: an actor holding a stale derived trait
record whose fresh extraction yields nothing keeps the stale record —
processing does not remove existing records of the regenerated kinds in
that case. -/
theorem regen_replace_cex :
    process_actor_items (some [staleTrait "Old"]) [] [] [] [] [] =
      some [staleTrait "Old"] ∧ (staleTrait "Old").type = "trait" := by
  exact ⟨by decide, by decide⟩

/-- Witness for C2 (amended): an actor with three stale trait records,
re-supplied with two freshly extracted trait entries, holds exactly two
trait records afterwards, never five. -/
theorem regen_replace_witness :
    ((process_actor_items (some [staleTrait "A", staleTrait "B", staleTrait "C"])
        [] [] ["Fear (2)", "Regeneration"] [] []).getD []).filter
          (fun i => regenKind i.type) =
      buildNewItems [] [] ["Fear (2)", "Regeneration"] [] [] ∧
    ((process_actor_items (some [staleTrait "A", staleTrait "B", staleTrait "C"])
        [] [] ["Fear (2)", "Regeneration"] [] []).getD []).countP
          (fun i => i.type = "trait") = 2 :=
  ⟨regen_replace_amended _ _ _ _ _ _ (by decide), by decide⟩

/-- Counterexample for C4 as stated: for an actor whose armour is already
the per-body-location mapping (uniformly 3) and which embeds no armour
item, `fix_actor_armour` is not a no-op — it returns the all-zero mapping
instead of the existing one. -/
theorem fix_actor_armour_cex :
    actorArm3.system.armour = some (ArmourJson.locs (uniformLoc 3)) ∧
    fix_actor_armour actorArm3 = uniformLoc 0 ∧
    (fix_actor actorArm3).system.armour ≠ actorArm3.system.armour := by
  refine ⟨by decide, by decide, by decide⟩

/-- C4 (amended).  Without an embedded armour item, `fix_actor_armour`
expands a legacy `{"value": X}` armour into the mapping with `X` at every
location; any other armour shape (a per-location mapping or an absent key)
is replaced by the all-zero mapping, so the transform is a no-op on the
current shape only when the existing mapping is all zeros. -/
theorem fix_actor_armour_amended (a : Actor)
    (hno : (a.items.getD []).find? (fun i => i.type = "armour") = none) :
    (∀ v : Int, a.system.armour = some (ArmourJson.withValue v) →
        fix_actor_armour a = uniformLoc v) ∧
    ((∀ v : Int, a.system.armour ≠ some (ArmourJson.withValue v)) →
        fix_actor_armour a = uniformLoc 0) := by
  constructor
  · intro v hv
    simp only [fix_actor_armour, hno, hv]
  · intro hv
    cases ha : a.system.armour with
    | none => simp [fix_actor_armour, hno, ha]
    | some aj =>
        cases aj with
        | withValue v => exact absurd ha (hv v)
        | locs m => simp [fix_actor_armour, hno, ha]

/-- Witness for C4 (amended): a legacy `{"value": 5}` armour on an actor
without items becomes the uniform mapping with 5 at every location. -/
theorem fix_actor_armour_witness :
    fix_actor_armour
        ⟨{ sysNone with armour := some (ArmourJson.withValue 5) }, none⟩ =
      uniformLoc 5 :=
  (fix_actor_armour_amended
      ⟨{ sysNone with armour := some (ArmourJson.withValue 5) }, none⟩ rfl).1 5 rfl

theorem refactor_weapon_cls (s : FixItemSys) : (refactor_weapon s).cls = s.cls := by
  simp only [refactor_weapon]
  repeat' split
  all_goals rfl

theorem refactor_weapon_melee (s : FixItemSys) (r : Rof)
    (h1 : (refactor_weapon s).cls = some "melee")
    (h2 : (refactor_weapon s).rof = some r) : r.single = true := by
  rw [refactor_weapon_cls] at h1
  simp only [refactor_weapon, h1] at h2
  revert h2
  repeat' split
  all_goals intro h2
  all_goals simp_all
  all_goals (try (cases h2; simp_all))

/-- C10.  After `refactor_weapon`, every weapon whose class is `"melee"`
and whose `rof` value is a mapping has `rof["single"] = true`, and
re-applying `refactor_weapon` preserves this (the second conjunct is the
same invariant for the twice-refactored dictionary). -/
theorem refactor_weapon_melee_single (s : FixItemSys) :
    (∀ r : Rof, (refactor_weapon s).cls = some "melee" →
        (refactor_weapon s).rof = some r → r.single = true) ∧
    (∀ r : Rof, (refactor_weapon (refactor_weapon s)).cls = some "melee" →
        (refactor_weapon (refactor_weapon s)).rof = some r → r.single = true) :=
  ⟨fun r h1 h2 => refactor_weapon_melee s r h1 h2,
   fun r h1 h2 => refactor_weapon_melee (refactor_weapon s) r h1 h2⟩

/-- Witness for C10: a melee weapon whose `rof.single` is `False` comes out
of `refactor_weapon` with `rof.single = True`. -/
theorem refactor_weapon_melee_single_witness :
    (refactor_weapon meleeWeaponSys).rof = some ⟨true, 2, 0⟩ ∧
    (⟨true, 2, 0⟩ : Rof).single = true :=
  ⟨by decide, (refactor_weapon_melee_single meleeWeaponSys).1 ⟨true, 2, 0⟩
      (by decide) (by decide)⟩

/-- Counterexample for C1 as stated: `fix_actor` is not idempotent.  On an
actor with a description, notes and a threat rating, the second application
rebuilds `details.notes` from the description alone (the original notes,
threat rating and movement were popped by the first run) and clears
`details.role`. -/
theorem fix_actor_not_idempotent_cex :
    fix_actor (fix_actor actorDN) ≠ fix_actor actorDN ∧
    ((fix_actor actorDN).system.details.map Details.notes =
      some "D\n\nTHREAT RATING: T\n\nN") ∧
    ((fix_actor (fix_actor actorDN)).system.details.map Details.notes = some "D") := by
  refine ⟨by decide, by decide, by decide⟩

theorem tableGet_class_stable (raw : String) :
    tableGet weaponClassMapTable (tableGet weaponClassMapTable raw ⟨pyLower raw.data⟩)
        ⟨pyLower (tableGet weaponClassMapTable raw ⟨pyLower raw.data⟩).data⟩ =
      tableGet weaponClassMapTable raw ⟨pyLower raw.data⟩ := by
  unfold tableGet
  cases h : weaponClassMapTable.lookup raw with
  | some v =>
      have hv : (raw, v) ∈ weaponClassMapTable := by
        obtain ⟨l1, l2, heq, -⟩ := List.lookup_eq_some_iff.mp h
        rw [heq]
        exact List.mem_append_right _ (List.mem_cons_self _ _)
      have hp : ∀ p ∈ weaponClassMapTable,
          (weaponClassMapTable.lookup p.2).getD ⟨pyLower p.2.data⟩ = p.2 := by decide
      simpa using hp _ hv
  | none =>
      simp only [Option.getD_none]
      have hne := pyLower_ne_classKey raw.data
      have hl : weaponClassMapTable.lookup (⟨pyLower raw.data⟩ : String) = none := by
        rw [List.lookup_eq_none_iff]
        intro p hp
        simp only [weaponClassMapTable, List.mem_cons, List.not_mem_nil, or_false] at hp
        rcases hp with rfl | rfl | rfl | rfl | rfl <;>
          simpa using by
            first
            | exact hne.1 | exact hne.2.1 | exact hne.2.2.1
            | exact hne.2.2.2.1 | exact hne.2.2.2.2
      rw [hl]
      simp only [Option.getD_none]
      rw [String.ext_iff]
      simpa using pyLower_idem raw.data

theorem fix_weapon_idem (s : FixItemSys) : fix_weapon (fix_weapon s) = fix_weapon s := by
  cases hd : s.damage with
  | none =>
      cases hc : s.clip with
      | none => simp [fix_weapon, hd, hc, tableGet_class_stable]
      | some cv => cases cv <;> simp [fix_weapon, hd, hc, tableGet_class_stable]
  | some dv =>
      cases dv with
      | asStr x =>
          cases hc : s.clip with
          | none => simp [fix_weapon, hd, hc, tableGet_class_stable]
          | some cv => cases cv <;> simp [fix_weapon, hd, hc, tableGet_class_stable]
      | asObj f t b =>
          cases hc : s.clip with
          | none => simp [fix_weapon, hd, hc, tableGet_class_stable]
          | some cv => cases cv <;> simp [fix_weapon, hd, hc, tableGet_class_stable]

theorem fullLoc_idem (m : LocMap) : fullLoc (fullLoc m) = fullLoc m := by
  simp [fullLoc]

theorem fix_armour_item_idem (s : FixItemSys) :
    fix_armour_item (fix_armour_item s) = fix_armour_item s := by
  simp [fix_armour_item, fullLoc_idem, emptySys]

theorem fix_gear_item_idem (s : FixItemSys) :
    fix_gear_item (fix_gear_item s) = fix_gear_item s := by
  simp [fix_gear_item]

theorem fix_item_type (i : FixItem) : (fix_item i).type = i.type := by
  simp only [fix_item]
  repeat' split
  all_goals rfl

theorem fix_item_idem (i : FixItem) : fix_item (fix_item i) = fix_item i := by
  by_cases hw : i.type = "weapon"
  · simp [fix_item, hw, fix_weapon_idem]
  · by_cases ha : i.type = "armour"
    · simp [fix_item, hw, ha, fix_armour_item_idem]
    · by_cases hg : i.type = "gear"
      · simp [fix_item, hw, ha, hg, fix_gear_item_idem]
      · simp [fix_item, hw, ha, hg]

theorem find?_armour_map_fix (l : List FixItem) :
    (l.map fix_item).find? (fun i => i.type = "armour") =
      (l.find? (fun i => i.type = "armour")).map fix_item := by
  induction l with
  | nil => rfl
  | cons hd tl ih =>
      simp only [List.map_cons, List.find?_cons]
      rw [fix_item_type]
      cases hp : (decide (hd.type = "armour")) with
      | true => simp
      | false => simpa using ih

theorem fix_actor_items_eq (a : Actor) :
    (fix_actor a).items = a.items.map (List.map fix_item) := by
  simp only [fix_actor]

theorem fix_actor_armour_field (a : Actor) :
    (fix_actor a).system.armour = some (ArmourJson.locs (fix_actor_armour a)) := by
  simp only [fix_actor]

theorem fix_actor_armour_second (a : Actor)
    (h4 : ((a.items.getD []).find? (fun i => i.type = "armour")).isSome ∨
          ∀ v : Int, a.system.armour = some (ArmourJson.withValue v) → v = 0) :
    fix_actor_armour (fix_actor a) = fix_actor_armour a := by
  have hitems : ((fix_actor a).items.getD []).find? (fun i => i.type = "armour") =
      ((a.items.getD []).find? (fun i => i.type = "armour")).map fix_item := by
    rw [fix_actor_items_eq]
    cases a.items with
    | none => rfl
    | some l => simpa using find?_armour_map_fix l
  cases hfind : (a.items.getD []).find? (fun i => i.type = "armour") with
  | some it =>
      have hty : it.type = "armour" := by
        have := List.find?_some hfind
        simpa using this
      have hnw : ¬ it.type = "weapon" := by rw [hty]; decide
      conv_lhs => rw [fix_actor_armour]
      rw [hitems, hfind]
      simp only [Option.map_some']
      rw [fix_item, if_neg hnw, if_pos hty]
      simp only [fix_actor_armour, hfind]
      simp [fix_armour_item, emptySys, fullLoc_idem]
  | none =>
      conv_lhs => rw [fix_actor_armour]
      rw [hitems, hfind]
      simp only [Option.map_none']
      rw [fix_actor_armour_field]
      rcases h4 with h4 | h4
      · rw [hfind] at h4; simp at h4
      · simp only [fix_actor_armour, hfind]
        cases ha : a.system.armour with
        | none => rfl
        | some aj =>
            cases aj with
            | withValue v => rw [h4 v ha]
            | locs m => rfl

theorem fix_characteristics_idem (cs : List (String × CharVal)) :
    fix_characteristics (fix_characteristics cs) = fix_characteristics cs := by
  simp only [fix_characteristics, List.map_map]
  refine List.map_congr_left (fun kv _ => ?_)
  cases kv with
  | mk k v => cases v <;> rfl

theorem fix_actor_system_eq (x : Actor) :
    (fix_actor x).system =
      ⟨x.system.characteristics.map fix_characteristics,
       some (ArmourJson.locs (fix_actor_armour x)),
       some (x.system.fate.getD (0, 0)),
       some (x.system.fatigue.getD 0),
       some (x.system.corruption.getD 0),
       some (x.system.insanity.getD 0),
       some (x.system.influence.getD 0),
       some (x.system.xp.getD (0, 0)),
       some (x.system.aptitudes.getD []),
       some (x.system.defeated.getD false),
       none,
       x.system.description,
       none,
       none,
       some ⟨"", "",
         (if (x.system.threatRating.getD "") ≠ "" then x.system.threatRating.getD "" else ""),
         "",
         String.intercalate "\n" (notesParts (x.system.description.getD "")
           (x.system.threatRating.getD "") x.system.movement (x.system.notes.getD ""))⟩⟩ := by
  cases h : x.system.characteristics <;> simp [fix_actor, h]

/-- C1 (amended).  `fix_actor` is idempotent exactly on already-converged
actors: when the legacy `notes`, `threatRating` and `movement` keys are
absent (the first run pops them) and the armour computation is stable
(an embedded armour item exists, or the armour is not a legacy non-zero
`{"value": X}`), a second application changes nothing.  On other actors a
second run truncates `details.notes` and resets armour/role — see the
counterexample. -/
theorem fix_actor_idem_of_stable (a : Actor)
    (h1 : a.system.notes = none) (h2 : a.system.threatRating = none)
    (h3 : a.system.movement = none)
    (h4 : ((a.items.getD []).find? (fun i => i.type = "armour")).isSome ∨
          ∀ v : Int, a.system.armour = some (ArmourJson.withValue v) → v = 0) :
    fix_actor (fix_actor a) = fix_actor a := by
  have harm := fix_actor_armour_second a h4
  have hext : ∀ x y : Actor, x.system = y.system → x.items = y.items → x = y := by
    intro x y hs hi
    cases x; cases y; cases hs; cases hi; rfl
  refine hext _ _ ?_ ?_
  · simp only [fix_actor_system_eq, harm, h1, h2, h3, Option.map_map,
      Option.getD_some, Option.map_some', Option.map_none']
    cases a.system.characteristics with
    | none => rfl
    | some cs => simp [Function.comp, fix_characteristics_idem]
  · rw [fix_actor_items_eq, fix_actor_items_eq]
    cases a.items with
    | none => rfl
    | some l =>
        simp only [Option.map_some', List.map_map]
        congr 1
        exact List.map_congr_left (fun i _ => fix_item_idem i)

/-- Witness for C1 (amended): `fix_actor` is idempotent on an actor with no
legacy fields, no items and no armour. -/
theorem fix_actor_idem_witness :
    fix_actor (fix_actor (⟨sysNone, none⟩ : Actor)) = fix_actor ⟨sysNone, none⟩ :=
  fix_actor_idem_of_stable ⟨sysNone, none⟩ rfl rfl rfl
    (Or.inr (fun _ h => Option.noConfusion h))
